import Mathlib

/-!
Verification of the cliglue rule-matching / resolution engine against its
specification.  Python source embedded shallowly:
  - src/cliglue/parser/value.py  (value coercion and choice resolution)
  - src/cliglue/help/help.py     (help rendering helpers)
Missing repository modules (the parser engine, keyword index, error types)
are modelled from the specification, as marked in doc comments.
-/

namespace Cliglue

/-- Python runtime values that flow through the engine: raw strings, coerced
integers, booleans (flag presence), lists (multiple-value bindings), and
Python `None` (modelled as `null`). -/
inductive Value where
  | str (s : String)
  | int (n : Int)
  | bool (b : Bool)
  | list (vs : List Value)
  | null

/-- A Python exception kind/message raised by a converter. -/
abbrev PyExc := String

/-- A type-or-converter: a one-string-argument callable that either returns a
value or raises (modelled with `Except`). -/
abbrev Converter := String → Except PyExc Value

/-- Decimal digit-string reading used by the model of Python's `int`: all
characters must be digits and at least one must be present. -/
def digitsToNat : List Char → Option Nat
  | [] => Option.none
  | cs =>
    if cs.all (fun c => c.isDigit) then
      some (cs.foldl (fun a c => a * 10 + (c.toNat - 48)) 0)
    else Option.none

/-- Model of Python `int(...)` parsing of a decimal string with an optional
sign. -/
def pyIntChars : List Char → Option Int
  | '-' :: cs => (digitsToNat cs).map (fun n => -(n : Int))
  | '+' :: cs => (digitsToNat cs).map (fun n => (n : Int))
  | cs => (digitsToNat cs).map (fun n => (n : Int))

/-- Model of Python's built-in `int` applied to one string argument: returns
the parsed integer, raises `ValueError` on a non-numeric string. -/
def pyInt : Converter := fun s =>
  match pyIntChars s.data with
  | some n => Except.ok (Value.int n)
  | Option.none => Except.error "ValueError"

/-- Model of Python's built-in `str` applied to one string argument. -/
def pyStr : Converter := fun s => Except.ok (Value.str s)

/-- A rule's `choices` declaration: either a fixed list or a zero-argument
producer function (spec §3 / design note on lazy choice producers).
Choice elements are compared as raw strings (spec §4.2). -/
inductive ChoicesDecl where
  | static (l : List String)
  | producer (f : Unit → List String)

/-- The value-bearing rule record (`Parameter` / `PositionalArgument` of the
data model, the `ValueRule` base of src/cliglue/builder/rule.py).  The
`keywords` list is the Python `Set[str]` in its iteration order. -/
structure ValueRule where
  keywords : List String
  name : Option String := Option.none
  type : Option Converter := Option.none
  default : Option Value := Option.none
  required : Bool := false
  multiple : Bool := false
  choices : Option ChoicesDecl := Option.none
  strict_choices : Bool := false
  help : Option String := Option.none

/-- The rule tree (src/cliglue/builder/rule.py rule classes, spec §3): one
variant per grammar element kind. -/
inductive CliRule where
  | subcommand (keywords : List String) (help : Option String) (subrules : List CliRule)
  | flag (keywords : List String) (help : Option String)
  | primary_option (keywords : List String) (help : Option String)
  | parameter (rule : ValueRule)
  | positional (rule : ValueRule)
  | all_args (name : String)

/-- Embeds `parse_typed_value` of src/cliglue/parser/value.py: `None` type
returns the raw string unchanged; otherwise the type/converter is invoked on
the raw string (both the `callable` branch and the cast branch of the source
perform the same call `_type(arg)`). -/
def parse_typed_value (_type : Option Converter) (arg : String) : Except PyExc Value :=
  match _type with
  | Option.none => Except.ok (Value.str arg)
  | some f => f arg

/-- Embeds `parse_value_rule` of src/cliglue/parser/value.py. -/
def parse_value_rule (rule : ValueRule) (arg : String) : Except PyExc Value :=
  parse_typed_value rule.type arg

/-- Embeds `generate_value_choices` of src/cliglue/parser/value.py.  The
source's falsy test `if not rule.choices` returns `[]` for an unset `choices`
(and for an empty static list, where returning the list verbatim coincides);
a list is returned verbatim; otherwise the producer is invoked with zero
arguments (the source's `getfullargspec` inspection has no effect on the
result). -/
def generate_value_choices (rule : ValueRule) : List String :=
  match rule.choices with
  | Option.none => []
  | some (ChoicesDecl.static l) => l
  | some (ChoicesDecl.producer f) => f ()

/-- Python truthiness of an `Optional[str]`: `None` and the empty string are
falsy. -/
def pyTruthy : Option String → Bool
  | Option.none => false
  | some s => s ≠ ""

/-- The key order used by `sorted_keywords` of src/cliglue/help/help.py:
Python `sorted(keywords, key=lambda k: (len(k), k))` — shorter keyword first,
ties broken by the string order. -/
def keywordKeyLe (a b : String) : Prop :=
  a.length < b.length ∨ (a.length = b.length ∧ a ≤ b)

instance : DecidableRel keywordKeyLe := fun a b =>
  inferInstanceAs (Decidable (a.length < b.length ∨ (a.length = b.length ∧ a ≤ b)))

instance : IsTotal String keywordKeyLe := by
  constructor
  intro a b
  rcases Nat.lt_trichotomy a.length b.length with h | h | h
  · exact Or.inl (Or.inl h)
  · rcases le_total a b with hab | hba
    · exact Or.inl (Or.inr ⟨h, hab⟩)
    · exact Or.inr (Or.inr ⟨h.symm, hba⟩)
  · exact Or.inr (Or.inl h)

instance : IsTrans String keywordKeyLe := by
  constructor
  intro a b c hab hbc
  rcases hab with h1 | ⟨e1, l1⟩
  · rcases hbc with h2 | ⟨e2, _⟩
    · exact Or.inl (h1.trans h2)
    · exact Or.inl (e2 ▸ h1)
  · rcases hbc with h2 | ⟨e2, l2⟩
    · exact Or.inl (e1 ▸ h2)
    · exact Or.inr ⟨e1.trans e2, le_trans l1 l2⟩

/-- Embeds `sorted_keywords` of src/cliglue/help/help.py: a stable sort under
the key `(len(k), k)`; as that key order is a linear order on strings, any
sort computes the same list, so Mathlib's insertion sort embeds it. -/
def sorted_keywords (keywords : List String) : List String :=
  List.insertionSort keywordKeyLe keywords

/-- Embeds `_subcommand_short_name` of src/cliglue/help/help.py:
`next(iter(rule.keywords))`, i.e. the first element of the keyword set in its
iteration order (the list's head in this embedding). -/
def subcommand_short_name (keywords : List String) : String :=
  keywords.headD ""

/-- Modelled from the spec: `names_from_keywords` lives in
src/cliglue/parser/keyword.py, which is not under src/.  Spec §4.1: the
keyword index produces the plain alias names by "stripping any leading marker
characters such as `--`/`-`". -/
def strip_marker_chars (kw : String) : String :=
  String.mk (kw.data.dropWhile (fun c => c = '-'))

/-- Modelled from the spec (§4.1): plain alias names of all keywords.  The
Python function returns a set; this embedding keeps the iteration order as a
list. -/
def names_from_keywords (keywords : List String) : List String :=
  keywords.map strip_marker_chars

/-- Model of Python `max(names, key=lambda n: len(n))` on a list in iteration
order: the first element of maximal length wins (Python `max` keeps the
current candidate unless a strictly greater key appears).  Python raises on an
empty iterable; the empty case returns `""` here (keywords are non-empty by
the construction invariant). -/
def maxByLen : List String → String
  | [] => ""
  | [x] => x
  | x :: y :: xs =>
    let m := maxByLen (y :: xs)
    if m.length > x.length then m else x

/-- Embeds `_param_var_name` of src/cliglue/help/help.py: the explicit name
uppercased when truthy, else the longest stripped keyword name uppercased. -/
def param_var_name (rule : ValueRule) : String :=
  if pyTruthy rule.name then (rule.name.getD "").toUpper
  else (maxByLen (names_from_keywords rule.keywords)).toUpper

/-- Embeds `_argument_var_name` of src/cliglue/help/help.py (a positional
argument's `name` is a required string in the source; `getD` unwraps it). -/
def argument_var_name (rule : ValueRule) : String :=
  (rule.name.getD "").toUpper

/-- Modelled from the spec: the error taxonomy of §4.4 (the error classes of
src/cliglue/parser/error.py are not under src/).  Each failure carries the
offending token / rule identity. -/
inductive CliError where
  | MissingValue (tok : String)
  | ConversionError (raw : String)
  | ChoiceViolation (raw : String)
  | UnknownToken (tok : String)
  | MissingRequiredArgument (varname : String)
  | DuplicateKeyword (kw : String)
deriving DecidableEq

/-- Modelled from the spec: the `coerce` operation of §4.2 as used by the
resolver (the wrapping of a converter's raised exception into a
`ConversionError` happens in src/cliglue/parser/parser.py, not under src/):
invokes `parse_typed_value` and maps a raised exception to the
`ConversionError` failure kind. -/
def coerce_checked (t : Option Converter) (arg : String) : Except CliError Value :=
  match parse_typed_value t arg with
  | Except.ok v => Except.ok v
  | Except.error _ => Except.error (CliError.ConversionError arg)

/-- Modelled from the spec: the `validate_choice` operation of §4.2 (the
validation call site in src/cliglue/parser/parser.py is not under src/): when
`strict_choices` is set and the resolved choice list is non-empty, fails with
`ChoiceViolation` if the raw string is absent from it; comparison is on the
raw string, before coercion. -/
def validate_choice (rule : ValueRule) (raw : String) : Except CliError Unit :=
  if rule.strict_choices then
    if generate_value_choices rule ≠ [] ∧ raw ∉ generate_value_choices rule then
      Except.error (CliError.ChoiceViolation raw)
    else Except.ok ()
  else Except.ok ()

/-- The bindings mapping of a resolution pass: variable name to accumulated
value, in first-bound order (a Python dict). -/
abbrev Bindings := List (String × Value)

/-- Dict lookup. -/
def getBinding : Bindings → String → Option Value
  | [], _ => Option.none
  | (m, w) :: bs, n => if m = n then some w else getBinding bs n

/-- Dict update: overwrite in place, or append a new entry. -/
def setBinding : Bindings → String → Value → Bindings
  | [], n, v => [(n, v)]
  | (m, w) :: bs, n, v => if m = n then (n, v) :: bs else (m, w) :: setBinding bs n v

/-- Append one value to a `multiple` parameter's accumulated sequence (spec
§4.3 step 3), starting a fresh one-element sequence when unbound. -/
def appendBinding (b : Bindings) (n : String) (v : Value) : Bindings :=
  match getBinding b n with
  | some (Value.list xs) => setBinding b n (Value.list (xs ++ [v]))
  | _ => setBinding b n (Value.list [v])

/-- Split a character sequence at the first `'='` (Python
`token.split('=', 1)`): the key before it and the value after it, or nothing
when no `'='` occurs. -/
def splitEqChars : List Char → Option (List Char × List Char)
  | [] => Option.none
  | c :: cs =>
    if c = '=' then some ([], cs)
    else
      match splitEqChars cs with
      | some (k, v) => some (c :: k, v)
      | Option.none => Option.none

/-- Split a token at its first `'='` into key and embedded value (spec §4.3
steps 2–3: "the token or its `=`-split key"). -/
def splitEq (tok : String) : Option (String × String) :=
  match splitEqChars tok.data with
  | some (k, v) => some (String.mk k, String.mk v)
  | Option.none => Option.none

/-- The token's prefix up to `'='`, or the whole token when it has none
(spec §4.3 step 2). -/
def keyOf (tok : String) : String :=
  match splitEq tok with
  | some (k, _) => k
  | Option.none => tok

/-- Modelled from the spec (§4.1): the bound variable identifier of a value
rule — the explicit `name` when given, else the stripped keyword name (the
longest one, mirroring `_param_var_name` of src/cliglue/help/help.py without
the uppercasing). -/
def rule_var_name (rule : ValueRule) : String :=
  if pyTruthy rule.name then rule.name.getD ""
  else maxByLen (names_from_keywords rule.keywords)

/-- Modelled from the spec (§4.1): the bound variable identifier of a
flag-like rule, derived from its stripped keyword names. -/
def flag_var_name (keywords : List String) : String :=
  maxByLen (names_from_keywords keywords)

/-- Modelled from the spec (§4.3 step 1): the first `Subcommand` rule of the
current scope one of whose keywords is exactly the token. -/
def findSubcommandMatch : List CliRule → String → Option (List String × List CliRule)
  | [], _ => Option.none
  | CliRule.subcommand kws _ subs :: rules, tok =>
    if tok ∈ kws then some (kws, subs) else findSubcommandMatch rules tok
  | _ :: rules, tok => findSubcommandMatch rules tok

/-- Modelled from the spec (§4.3 step 2): the first `Flag`/`PrimaryOption`
rule matched by the token or by its prefix up to `'='`; yields the variable
name to bind to presence. -/
def findFlagMatch : List CliRule → String → Option String
  | [], _ => Option.none
  | CliRule.flag kws _ :: rules, tok =>
    if tok ∈ kws ∨ keyOf tok ∈ kws then some (flag_var_name kws)
    else findFlagMatch rules tok
  | CliRule.primary_option kws _ :: rules, tok =>
    if tok ∈ kws ∨ keyOf tok ∈ kws then some (flag_var_name kws)
    else findFlagMatch rules tok
  | _ :: rules, tok => findFlagMatch rules tok

/-- Modelled from the spec (§4.3 step 3): the first `Parameter` rule matched
by the token (two-token form, second component `none`) or by its `=`-split
key (embedded value in the second component). -/
def findParamMatch : List CliRule → String → Option (ValueRule × Option String)
  | [], _ => Option.none
  | CliRule.parameter r :: rules, tok =>
    if tok ∈ r.keywords then some (r, Option.none)
    else
      match splitEq tok with
      | some (k, v) => if k ∈ r.keywords then some (r, some v) else findParamMatch rules tok
      | Option.none => findParamMatch rules tok
  | _ :: rules, tok => findParamMatch rules tok

/-- Modelled from the spec (§4.3 step 4): the positional-argument rule at the
given positional cursor of the current scope. -/
def nthPositional : List CliRule → Nat → Option ValueRule
  | [], _ => Option.none
  | CliRule.positional r :: _, 0 => some r
  | CliRule.positional _ :: rules, n + 1 => nthPositional rules n
  | _ :: rules, n => nthPositional rules n

/-- Modelled from the spec (§4.3 step 5): the capture name of an
`AllArguments` rule of the current scope, when one exists. -/
def findAllArgs : List CliRule → Option String
  | [] => Option.none
  | CliRule.all_args name :: _ => some name
  | _ :: rules => findAllArgs rules

/-- Modelled from the spec (§4.3 step 3 and §4.2): validate the raw value
against the choice set, coerce it, then bind — appending when `multiple`,
overwriting (last occurrence wins) otherwise. -/
def bindParamValue (b : Bindings) (rule : ValueRule) (raw : String) : Except CliError Bindings :=
  match validate_choice rule raw with
  | Except.error e => Except.error e
  | Except.ok _ =>
    match coerce_checked rule.type raw with
    | Except.error e => Except.error e
    | Except.ok v =>
      if rule.multiple then Except.ok (appendBinding b (rule_var_name rule) v)
      else Except.ok (setBinding b (rule_var_name rule) v)

/-- The resolution mode (spec §4.3): strict execution or dry best-effort
introspection. -/
inductive Mode where
  | strict
  | dry
deriving DecidableEq

/-- Modelled from the spec (§4.3): the working state of one resolution pass —
the accumulated reachable rules of every entered scope (for keyword
matching), the innermost scope's rules (for subcommand / positional /
catch-all matching), the positional cursor, the bindings, and the matched
subcommand path (each entry a subcommand's keyword set in iteration
order). -/
structure PState where
  keyword_rules : List CliRule
  cur_scope : List CliRule
  pos_cursor : Nat
  bindings : Bindings
  path : List (List String)

/-- Modelled from the spec (§4.3, output): the resolution context — matched
subcommand path, rules reachable at the final scope, bindings. -/
structure RunContext where
  active_subcommands : List (List String)
  active_rules : List CliRule
  bindings : Bindings

/-- Modelled from the spec: the per-token algorithm of §4.3 (the engine of
src/cliglue/parser/parser.py is not under src/).  One left-to-right pass, no
backtracking: subcommand push, flag presence, parameter value consumption
(embedded `=` or next token, `MissingValue` when none remains), positional
binding, catch-all capture of every remaining token, and unknown-token
handling (strict fails, dry skips). -/
def parseLoop (mode : Mode) : PState → List String → Except CliError PState
  | st, [] => Except.ok st
  | st, tok :: rest =>
    match findSubcommandMatch st.cur_scope tok with
    | some (kws, subs) =>
      parseLoop mode
        { st with cur_scope := subs, pos_cursor := 0,
                  keyword_rules := st.keyword_rules ++ subs,
                  path := st.path ++ [kws] } rest
    | Option.none =>
    match findFlagMatch st.keyword_rules tok with
    | some fname =>
      parseLoop mode { st with bindings := setBinding st.bindings fname (Value.bool true) } rest
    | Option.none =>
    match findParamMatch st.keyword_rules tok with
    | some (rule, some rawVal) =>
      match bindParamValue st.bindings rule rawVal with
      | Except.ok b => parseLoop mode { st with bindings := b } rest
      | Except.error e => Except.error e
    | some (rule, Option.none) =>
      match rest with
      | [] => Except.error (CliError.MissingValue tok)
      | v :: rest2 =>
        match bindParamValue st.bindings rule v with
        | Except.ok b => parseLoop mode { st with bindings := b } rest2
        | Except.error e => Except.error e
    | Option.none =>
    match nthPositional st.cur_scope st.pos_cursor with
    | some rule =>
      match bindParamValue st.bindings rule tok with
      | Except.ok b =>
        parseLoop mode { st with bindings := b, pos_cursor := st.pos_cursor + 1 } rest
      | Except.error e => Except.error e
    | Option.none =>
    match findAllArgs st.cur_scope with
    | some cname =>
      Except.ok
        { st with bindings := setBinding st.bindings cname
                    (Value.list ((tok :: rest).map Value.str)) }
    | Option.none =>
      match mode with
      | Mode.strict => Except.error (CliError.UnknownToken tok)
      | Mode.dry => parseLoop mode st rest

/-- Modelled from the spec (§4.3 finalization): one value rule's end-of-input
handling — an unbound required rule fails with `MissingRequiredArgument`; an
unbound `multiple` rule binds the empty sequence (§3 invariant: `multiple`
ignores `default` for emptiness); any other unbound rule binds its declared
default (Python `None` when none is declared). -/
def finalizeValueRule (b : Bindings) (rule : ValueRule) : Except CliError Bindings :=
  match getBinding b (rule_var_name rule) with
  | some _ => Except.ok b
  | Option.none =>
    if rule.required then Except.error (CliError.MissingRequiredArgument (rule_var_name rule))
    else if rule.multiple then Except.ok (setBinding b (rule_var_name rule) (Value.list []))
    else Except.ok (setBinding b (rule_var_name rule) (rule.default.getD Value.null))

/-- Modelled from the spec (§3): an unmatched flag-like rule binds `false`. -/
def finalizeFlag (b : Bindings) (keywords : List String) : Bindings :=
  match getBinding b (flag_var_name keywords) with
  | some _ => b
  | Option.none => setBinding b (flag_var_name keywords) (Value.bool false)

/-- Modelled from the spec (§4.3, end-of-input finalization, strict mode
only): walk every reachable rule; required-but-unbound value rules fail,
unbound optional value rules receive defaults, unmatched flags bind
`false`. -/
def finalizeRules (b : Bindings) : List CliRule → Except CliError Bindings
  | [] => Except.ok b
  | CliRule.parameter r :: rules =>
    match finalizeValueRule b r with
    | Except.ok b2 => finalizeRules b2 rules
    | Except.error e => Except.error e
  | CliRule.positional r :: rules =>
    match finalizeValueRule b r with
    | Except.ok b2 => finalizeRules b2 rules
    | Except.error e => Except.error e
  | CliRule.flag kws _ :: rules => finalizeRules (finalizeFlag b kws) rules
  | CliRule.primary_option kws _ :: rules => finalizeRules (finalizeFlag b kws) rules
  | _ :: rules => finalizeRules b rules

/-- Modelled from the spec (§4.3): the initial pass state at the root
scope. -/
def initState (rules : List CliRule) : PState :=
  { keyword_rules := rules, cur_scope := rules, pos_cursor := 0, bindings := [], path := [] }

/-- Modelled from the spec (§4.3): one full resolution pass — the token loop,
then (strict mode only) the end-of-input finalization; dry mode returns the
partial context as-is. -/
def parse_args (mode : Mode) (rules : List CliRule) (tokens : List String) :
    Except CliError RunContext :=
  match parseLoop mode (initState rules) tokens with
  | Except.error e => Except.error e
  | Except.ok st =>
    match mode with
    | Mode.dry => Except.ok ⟨st.path, st.keyword_rules, st.bindings⟩
    | Mode.strict =>
      match finalizeRules st.bindings st.keyword_rules with
      | Except.error e => Except.error e
      | Except.ok b => Except.ok ⟨st.path, st.keyword_rules, b⟩

/-- Embeds the `_OptionHelp` dataclass of src/cliglue/help/help.py: a rendered
help entry with its display command text, help text, and optional parent
entry. -/
inductive OptionHelp where
  | mk (cmd : String) (helpText : Option String) (parent : Option OptionHelp)

/-- The display command text of a help entry. -/
def OptionHelp.cmd : OptionHelp → String
  | OptionHelp.mk c _ _ => c

/-- The help text of a help entry. -/
def OptionHelp.helpText : OptionHelp → Option String
  | OptionHelp.mk _ h _ => h

/-- Modelled from the spec: `filter_rules` of src/cliglue/parser/rule_process.py
(not under src/) keeps the rules of one kind (`isinstance` filter). -/
def filter_rules (p : CliRule → Bool) (rules : List CliRule) : List CliRule :=
  rules.filter p

/-- Kind test: subcommand rule. -/
def isSubcommand : CliRule → Bool
  | CliRule.subcommand _ _ _ => true
  | _ => false

/-- Kind test: flag rule. -/
def isFlag : CliRule → Bool
  | CliRule.flag _ _ => true
  | _ => false

/-- Kind test: parameter rule. -/
def isParameter : CliRule → Bool
  | CliRule.parameter _ => true
  | _ => false

/-- Kind test: primary-option rule. -/
def isPrimaryOption : CliRule → Bool
  | CliRule.primary_option _ _ => true
  | _ => false

/-- The positional-argument rules of a rule list, keeping their records. -/
def positionalRules (rules : List CliRule) : List ValueRule :=
  rules.filterMap fun r =>
    match r with
    | CliRule.positional vr => some vr
    | _ => Option.none

/-- The capture names of the `AllArguments` rules of a rule list. -/
def allArgsNames (rules : List CliRule) : List String :=
  rules.filterMap fun r =>
    match r with
    | CliRule.all_args n => some n
    | _ => Option.none

/-- Embeds `_flag_help` / `_primary_option_help` of src/cliglue/help/help.py:
sorted keywords joined with a comma. -/
def flag_help_entry (keywords : List String) (help : Option String) : OptionHelp :=
  OptionHelp.mk (String.intercalate ", " (sorted_keywords keywords)) help Option.none

/-- Embeds `_parameter_help` of src/cliglue/help/help.py: sorted keywords
joined with a comma, a space, then the placeholder variable name. -/
def parameter_help_entry (rule : ValueRule) : OptionHelp :=
  OptionHelp.mk
    (String.intercalate ", " (sorted_keywords rule.keywords) ++ " " ++ param_var_name rule)
    rule.help Option.none

/-- Embeds `_generate_option_help` of src/cliglue/help/help.py: one entry per
flag-like or parameter rule, nothing for other kinds. -/
def generate_option_help : CliRule → Option OptionHelp
  | CliRule.primary_option kws h => some (flag_help_entry kws h)
  | CliRule.flag kws h => some (flag_help_entry kws h)
  | CliRule.parameter r => some (parameter_help_entry r)
  | _ => Option.none

/-- Embeds `_generate_options_helps` of src/cliglue/help/help.py (the source
filters the `None` placeholders out of the mapped list). -/
def generate_options_helps (rules : List CliRule) : List OptionHelp :=
  rules.filterMap generate_option_help

/-- Embeds `_subcommand_prefix` of src/cliglue/help/help.py: the parent
entry's command text and a space, or nothing at the root. -/
def subcommand_parent_part : Option OptionHelp → String
  | Option.none => ""
  | some p => p.cmd ++ " "

/-- Embeds `_subcommand_help` of src/cliglue/help/help.py: parent path, then
the sorted keywords joined with `|`. -/
def subcommand_help_entry (keywords : List String) (help : Option String)
    (parent : Option OptionHelp) : OptionHelp :=
  OptionHelp.mk (subcommand_parent_part parent ++ String.intercalate "|" (sorted_keywords keywords))
    help parent

/-- Embeds `_generate_commands_helps` of src/cliglue/help/help.py: the
depth-first listing of the subcommand tree, each entry followed by the
entries of its own subtree. -/
def generate_commands_helps : List CliRule → Option OptionHelp → List OptionHelp
  | [], _ => []
  | CliRule.subcommand kws h subs :: rules, parent =>
    let helper := subcommand_help_entry kws h parent
    (helper :: generate_commands_helps subs (some helper)) ++ generate_commands_helps rules parent
  | _ :: rules, parent => generate_commands_helps rules parent

/-- Embeds `_max_name_width` of src/cliglue/help/help.py (Python `max` over a
non-empty list of lengths; the empty case yields 0 here). -/
def max_name_width (helps : List OptionHelp) : Nat :=
  helps.foldr (fun h acc => max h.cmd.length acc) 0

/-- Python `str.ljust`: pad with spaces on the right up to the width. -/
def ljust (s : String) (width : Nat) : String :=
  s ++ String.mk (List.replicate (width - s.length) ' ')

/-- Embeds `__helpers_output` of src/cliglue/help/help.py: one padded line per
entry, with ` - help` appended when the help text is truthy. -/
def helpers_output (commands : List OptionHelp) : List String :=
  commands.map fun h =>
    if pyTruthy h.helpText then
      "  " ++ ljust h.cmd (max_name_width commands) ++ " - " ++ h.helpText.getD ""
    else
      "  " ++ ljust h.cmd (max_name_width commands)

/-- Embeds `_normalized_version` of src/cliglue/help/help.py. -/
def normalized_version (version : String) : String :=
  if version.startsWith "v" then version else "v" ++ version

/-- Embeds `app_help_info` of src/cliglue/help/help.py: the app-info banner
line, or nothing when neither an app name nor a help text is given. -/
def app_help_info (app_name : Option String) (help : Option String) (version : Option String) :
    Option String :=
  if pyTruthy app_name then
    let base := app_name.getD ""
    let withVer :=
      if pyTruthy version then base ++ " " ++ normalized_version (version.getD "") else base
    let withHelp := if pyTruthy help then withVer ++ " - " ++ help.getD "" else withVer
    some (withHelp ++ "\n")
  else if pyTruthy help then some (help.getD "" ++ "\n")
  else Option.none

/-- Embeds `generate_subcommand_help` of src/cliglue/help/help.py.  The
ambient `sys.argv[0]` of the source is the explicit `argv0` argument here. -/
def generate_subcommand_help (argv0 : String) (subrules all_rules : List CliRule)
    (app_name version help : Option String) (precommands : List String) : List String :=
  let command_rules := filter_rules isSubcommand subrules
  let flags := filter_rules isFlag all_rules
  let parameters := filter_rules isParameter all_rules
  let primary_options := filter_rules isPrimaryOption all_rules
  let pos_arguments := positionalRules all_rules
  let capture_names := allArgsNames all_rules
  let options := generate_options_helps all_rules
  let commands := generate_commands_helps command_rules Option.none
  let out0 :=
    match app_help_info app_name help version with
    | some info => [info]
    | Option.none => []
  let appBin := String.intercalate " " (argv0 :: precommands)
  let u1 := if commands.isEmpty then appBin else appBin ++ " [COMMAND]"
  let u2 :=
    if flags.isEmpty && parameters.isEmpty && primary_options.isEmpty then u1
    else u1 ++ " [OPTIONS]"
  let u3 := pos_arguments.foldl
    (fun acc r =>
      if r.required then acc ++ " " ++ argument_var_name r
      else acc ++ " [" ++ argument_var_name r ++ "]") u2
  let u4 := capture_names.foldl (fun acc n => acc ++ " [" ++ n ++ "...]") u3
  let out1 := out0 ++ ["Usage:\n  " ++ u4]
  let out2 := if options.isEmpty then out1 else out1 ++ ["\nOptions:"] ++ helpers_output options
  if commands.isEmpty then out2
  else
    out2 ++ ["\nCommands:"] ++ helpers_output commands
      ++ ["\nRun \"" ++ appBin ++ " COMMAND --help\" for more information on a command."]

/-- Embeds `generate_help` of src/cliglue/help/help.py.  The source runs the
resolver in dry mode inside a `try` block; its outcome is the explicit
`parseResult` argument here, and the `except CliError` fallback renders the
root rule set with an empty precommand path. -/
def generate_help (parseResult : Except CliError RunContext) (rules : List CliRule)
    (app_name version help : Option String) (argv0 : String) : List String :=
  match parseResult with
  | Except.ok ctx =>
    generate_subcommand_help argv0 rules ctx.active_rules app_name version help
      (ctx.active_subcommands.map subcommand_short_name)
  | Except.error _ =>
    generate_subcommand_help argv0 rules rules app_name version help []

/-- The composition of `generate_help` with the spec-modelled dry-mode
resolution pass, mirroring the call inside the source's `try` block. -/
def generate_help_run (rules : List CliRule) (app_name version help : Option String)
    (argv0 : String) (subargs : List String) : List String :=
  generate_help (parse_args Mode.dry rules subargs) rules app_name version help argv0

/-- One supplied occurrence of a named parameter: the keyword alias used, the
raw value, and whether it uses the single-token `=` form (`--param=v`) or the
two-token form (`--param v`). -/
structure ParamOcc where
  kw : String
  val : String
  eqForm : Bool
deriving DecidableEq

/-- The token(s) of one occurrence. -/
def renderOcc (o : ParamOcc) : List String :=
  if o.eqForm then [o.kw ++ "=" ++ o.val] else [o.kw, o.val]

/-- The token list of a sequence of occurrences. -/
def renderOccs (occs : List ParamOcc) : List String :=
  (occs.map renderOcc).flatten

/-- Coerce every occurrence's raw value with the declared type/converter, in
encounter order, failing when any single coercion fails. -/
def coerceOccs (t : Option Converter) : List ParamOcc → Option (List Value)
  | [] => some []
  | o :: os =>
    match coerce_checked t o.val with
    | Except.ok v => (coerceOccs t os).map (fun vs => v :: vs)
    | Except.error _ => Option.none

/-- Witness fixture: an untyped parameter `--param`/`-p` (spec §8 scenario). -/
def fixtureParam : ValueRule := { keywords := ["--param", "-p"] }

/-- Witness fixture: a required parameter. -/
def fixtureRequired : ValueRule := { keywords := ["--param"], required := true }

/-- Witness fixture: an optional parameter (for the absent-input default). -/
def fixtureOptional : ValueRule := { keywords := ["--param"] }

/-- Witness fixture: a multiple int-typed parameter, as in
`test_multi_parameters` of src/tests/parser/test_param.py. -/
def fixtureMulti : ValueRule :=
  { keywords := ["--param"], multiple := true, type := some pyInt }

/-- Witness fixture: strict choices from a static list, as in
`test_strict_choices` of src/tests/parser/test_param.py. -/
def fixtureChoicesStatic : ValueRule :=
  { keywords := ["--param"], choices := some (ChoicesDecl.static ["42"]),
    strict_choices := true }

/-- Witness fixture: strict choices from a zero-argument producer, as in
`test_strict_choices` of src/tests/parser/test_param.py. -/
def fixtureChoicesProducer : ValueRule :=
  { keywords := ["--param"], choices := some (ChoicesDecl.producer (fun _ => ["42"])),
    strict_choices := true }

/-! Theorems. -/

/-- C1: value coercion returns the raw string unchanged when the rule declares
no type, and the result of invoking the declared type/converter on the raw
string otherwise; in particular a parameter with the `int` type given the
token "42" binds the integer 42, not the string "42". -/
theorem parse_typed_value_spec :
    (∀ arg : String, parse_typed_value Option.none arg = Except.ok (Value.str arg))
    ∧ (∀ (f : Converter) (arg : String), parse_typed_value (some f) arg = f arg)
    ∧ parse_typed_value (some pyInt) "42" = Except.ok (Value.int 42) :=
  ⟨fun _ => rfl, fun _ _ => rfl, rfl⟩

/-- C2: whenever invoking the declared converter on a raw string raises, value
coercion fails with the `ConversionError` kind of the error taxonomy carrying
the offending raw token, rather than propagating the raised exception. -/
theorem coerce_checked_conversion_error (f : Converter) (arg : String) (e : PyExc)
    (h : f arg = Except.error e) :
    coerce_checked (some f) arg = Except.error (CliError.ConversionError arg) := by
  have hp : parse_typed_value (some f) arg = Except.error e := h
  unfold coerce_checked
  rw [hp]

/-- Witness for C2: Python `int` raises on "abc", and coercion maps that to
`ConversionError "abc"`. -/
theorem coerce_checked_conversion_error_witness :
    coerce_checked (some pyInt) "abc" = Except.error (CliError.ConversionError "abc") :=
  coerce_checked_conversion_error pyInt "abc" "ValueError" rfl

/-- C5: choice resolution returns a fixed list verbatim, the result of
invoking a zero-argument producer, and the empty list when `choices` is
unset. -/
theorem generate_value_choices_spec (rule : ValueRule) :
    (∀ l, rule.choices = some (ChoicesDecl.static l) → generate_value_choices rule = l)
    ∧ (∀ f, rule.choices = some (ChoicesDecl.producer f) → generate_value_choices rule = f ())
    ∧ (rule.choices = Option.none → generate_value_choices rule = []) := by
  refine ⟨fun l h => ?_, fun f h => ?_, fun h => ?_⟩ <;>
    · unfold generate_value_choices
      rw [h]

/-- Witness for C5: the three shapes of `choices` at concrete rules. -/
theorem generate_value_choices_spec_witness :
    generate_value_choices fixtureChoicesStatic = ["42"]
    ∧ generate_value_choices fixtureChoicesProducer = ["42"]
    ∧ generate_value_choices fixtureOptional = [] :=
  ⟨(generate_value_choices_spec fixtureChoicesStatic).1 ["42"] rfl,
   (generate_value_choices_spec fixtureChoicesProducer).2.1 (fun _ => ["42"]) rfl,
   (generate_value_choices_spec fixtureOptional).2.2 rfl⟩

/-- C4: with `strict_choices` set and a non-empty resolved choice set,
validation fails with `ChoiceViolation` exactly when the supplied raw value
(compared as a raw string, before coercion) is absent from the choice list,
and succeeds when it is present. -/
theorem validate_choice_strict (rule : ValueRule) (raw : String)
    (hs : rule.strict_choices = true) (hne : generate_value_choices rule ≠ []) :
    (raw ∉ generate_value_choices rule →
      validate_choice rule raw = Except.error (CliError.ChoiceViolation raw))
    ∧ (raw ∈ generate_value_choices rule → validate_choice rule raw = Except.ok ()) := by
  constructor <;> intro hm <;> unfold validate_choice <;> simp [hs, hne, hm]

/-- Witness for C4: `choices=['42']` with `strict_choices` rejects raw "4" and
accepts raw "42", both for the static list and for a zero-argument producer
returning `['42']`. -/
theorem validate_choice_strict_witness :
    validate_choice fixtureChoicesStatic "4" = Except.error (CliError.ChoiceViolation "4")
    ∧ validate_choice fixtureChoicesStatic "42" = Except.ok ()
    ∧ validate_choice fixtureChoicesProducer "4" = Except.error (CliError.ChoiceViolation "4")
    ∧ validate_choice fixtureChoicesProducer "42" = Except.ok () :=
  ⟨(validate_choice_strict fixtureChoicesStatic "4" rfl (by decide)).1 (by decide),
   (validate_choice_strict fixtureChoicesStatic "42" rfl (by decide)).2 (by decide),
   (validate_choice_strict fixtureChoicesProducer "4" rfl (by decide)).1 (by decide),
   (validate_choice_strict fixtureChoicesProducer "42" rfl (by decide)).2 (by decide)⟩

/-- C3 counterexample: with the keyword set iterating as ["run", "r"], the
deterministic display ordering puts the shortest alias "r" first, but the
subcommand short name used for the help renderer's scope path is "run" — the
first element in set-iteration order, not the shortest alias. -/
theorem subcommand_short_name_not_shortest :
    sorted_keywords ["run", "r"] = ["r", "run"]
    ∧ subcommand_short_name ["run", "r"] = "run"
    ∧ subcommand_short_name ["run", "r"] ≠ ("r" : String) := by
  refine ⟨by decide, rfl, by decide⟩

/-- C3 amended: keyword aliases do have one deterministic presentation
ordering — shortest first, ties broken by the string order — but the scope
path handed to the help renderer uses, for each matched subcommand, the first
keyword in the set's iteration order (`next(iter(keywords))`), which need not
be the shortest alias. -/
theorem sorted_keywords_ordering (kws : List String) :
    List.Sorted keywordKeyLe (sorted_keywords kws)
    ∧ (sorted_keywords kws).Perm kws
    ∧ ∀ l : List String, subcommand_short_name l = l.headD "" :=
  ⟨List.sorted_insertionSort keywordKeyLe kws,
   List.perm_insertionSort keywordKeyLe kws,
   fun _ => rfl⟩

/-- The element `maxByLen` picks is a member of a non-empty list. -/
theorem maxByLen_mem : ∀ l : List String, l ≠ [] → maxByLen l ∈ l
  | [], h => absurd rfl h
  | [x], _ => by simp [maxByLen]
  | x :: y :: xs, _ => by
    have ih := maxByLen_mem (y :: xs) (by simp)
    unfold maxByLen
    by_cases h : (maxByLen (y :: xs)).length > x.length
    · simp only [h, if_true]
      exact List.mem_cons_of_mem x ih
    · simp only [h, if_false]
      exact List.mem_cons_self x (y :: xs)

/-- No element of a list is longer than the one `maxByLen` picks. -/
theorem maxByLen_maximal : ∀ l : List String, ∀ x ∈ l, x.length ≤ (maxByLen l).length
  | [], x, hx => absurd hx (List.not_mem_nil x)
  | [a], x, hx => by
    simp at hx
    simp [maxByLen, hx]
  | a :: b :: xs, x, hx => by
    have ih := maxByLen_maximal (b :: xs)
    unfold maxByLen
    rcases List.mem_cons.mp hx with hxa | hxbs
    · subst hxa
      by_cases h : (maxByLen (b :: xs)).length > x.length
      · simp only [h, if_true]
        exact Nat.le_of_lt h
      · simp only [h, if_false]
        exact Nat.le_refl _
    · by_cases h : (maxByLen (b :: xs)).length > a.length
      · simp only [h, if_true]
        exact ih x hxbs
      · simp only [h, if_false]
        exact le_trans (ih x hxbs) (Nat.le_of_not_lt h)

/-- C10: the placeholder variable name of a parameter's help line is the
declared explicit name uppercased when one is given; otherwise it is the
uppercase of a stripped keyword alias of maximal length (not the shortest
alias used for display ordering). -/
theorem param_var_name_spec (rule : ValueRule) :
    (∀ n, rule.name = some n → n ≠ "" → param_var_name rule = n.toUpper)
    ∧ (rule.name = Option.none → rule.keywords ≠ [] →
        ∃ s, s ∈ names_from_keywords rule.keywords
          ∧ (∀ x ∈ names_from_keywords rule.keywords, x.length ≤ s.length)
          ∧ param_var_name rule = s.toUpper) := by
  constructor
  · intro n hn hne
    unfold param_var_name pyTruthy
    rw [hn]
    simp [hne]
  · intro hn hkw
    refine ⟨maxByLen (names_from_keywords rule.keywords), ?_, ?_, ?_⟩
    · refine maxByLen_mem _ ?_
      simp [names_from_keywords, hkw]
    · exact fun x hx => maxByLen_maximal _ x hx
    · unfold param_var_name pyTruthy
      rw [hn]
      simp

/-- Witness for C10: an explicit name wins; without one, `--param`/`-p` yields
the longest stripped alias "param" uppercased. -/
theorem param_var_name_spec_witness :
    param_var_name { keywords := ["--param", "-p"], name := some "custom" } = "custom".toUpper
    ∧ ∃ s, s ∈ names_from_keywords (["--param", "-p"] : List String)
        ∧ (∀ x ∈ names_from_keywords (["--param", "-p"] : List String), x.length ≤ s.length)
        ∧ param_var_name fixtureParam = s.toUpper :=
  ⟨(param_var_name_spec { keywords := ["--param", "-p"], name := some "custom" }).1
      "custom" rfl (by decide),
   (param_var_name_spec fixtureParam).2 rfl (by decide)⟩

/-- C9: `generate_help` never propagates a `CliError` of the dry-mode
resolution pass — on any such error it renders help for the root rule set
with an empty subcommand (precommand) path, the same output as a successful
resolution that matched no subcommand. -/
theorem generate_help_cli_error_fallback (e : CliError) (rules : List CliRule)
    (app_name version help : Option String) (argv0 : String) :
    generate_help (Except.error e) rules app_name version help argv0
      = generate_subcommand_help argv0 rules rules app_name version help []
    ∧ generate_help (Except.error e) rules app_name version help argv0
      = generate_help (Except.ok ⟨[], rules, []⟩) rules app_name version help argv0 :=
  ⟨rfl, rfl⟩

/-- Splitting a character list whose head part is `=`-free at the first `=`
recovers the two parts. -/
theorem splitEqChars_append : ∀ (k : List Char), ('=' : Char) ∉ k →
    ∀ v : List Char, splitEqChars (k ++ '=' :: v) = some (k, v)
  | [], _, v => by simp [splitEqChars]
  | c :: cs, h, v => by
    have hc : ¬(c = '=') := fun hh => h (hh ▸ List.mem_cons_self c cs)
    have ih : splitEqChars (cs.append ('=' :: v)) = some (cs, v) :=
      splitEqChars_append cs (fun hm => h (List.mem_cons_of_mem c hm)) v
    simp only [List.cons_append, splitEqChars, hc, if_false]
    rw [ih]

/-- The characters of `k ++ "=" ++ v`. -/
theorem data_append_eq_token (k v : String) :
    (k ++ "=" ++ v).data = k.data ++ '=' :: v.data := by
  have h1 : ("=" : String).data = ['='] := rfl
  simp [String.data_append, h1]

/-- Splitting `k ++ "=" ++ v` at the first `=` yields key `k` and embedded
value `v` whenever the keyword `k` contains no `=`. -/
theorem splitEq_append (k v : String) (h : ('=' : Char) ∉ k.data) :
    splitEq (k ++ "=" ++ v) = some (k, v) := by
  unfold splitEq
  rw [data_append_eq_token, splitEqChars_append k.data h v.data]

/-- A token of the form `k ++ "=" ++ v` is never itself one of a rule's
keywords when every keyword is `=`-free. -/
theorem eqtoken_not_keyword (k v : String) (kws : List String)
    (hfree : ∀ kw ∈ kws, ('=' : Char) ∉ kw.data) : (k ++ "=" ++ v) ∉ kws := by
  intro hmem
  have hin := hfree _ hmem
  rw [data_append_eq_token] at hin
  exact hin (by simp)

/-- Looking up the variable just set finds its new value. -/
theorem getBinding_setBinding : ∀ (b : Bindings) (n : String) (v : Value),
    getBinding (setBinding b n v) n = some v
  | [], n, v => by simp [setBinding, getBinding]
  | (m, w) :: bs, n, v => by
    by_cases h : m = n
    · simp [setBinding, getBinding, h]
    · simp only [setBinding, getBinding, h, if_false]
      exact getBinding_setBinding bs n v

/-- Setting the same variable twice keeps only the second value. -/
theorem setBinding_setBinding : ∀ (b : Bindings) (n : String) (v w : Value),
    setBinding (setBinding b n v) n w = setBinding b n w
  | [], n, v, w => by simp [setBinding]
  | (m, x) :: bs, n, v, w => by
    by_cases h : m = n
    · simp [setBinding, h]
    · simp only [setBinding, h, if_false, if_neg h]
      rw [setBinding_setBinding bs n v w]

/-- C8: with an empty token list in strict mode, finalization fails with
`MissingRequiredArgument` when the parameter is required and never bound, and
binds every unbound optional (non-multiple) parameter to its declared
default — Python `None` when no default is declared. -/
theorem finalize_required_and_default (r : ValueRule) :
    (r.required = true →
      parse_args Mode.strict [CliRule.parameter r] []
        = Except.error (CliError.MissingRequiredArgument (rule_var_name r)))
    ∧ (r.required = false → r.multiple = false →
      ∃ ctx, parse_args Mode.strict [CliRule.parameter r] [] = Except.ok ctx
        ∧ getBinding ctx.bindings (rule_var_name r) = some (r.default.getD Value.null)) := by
  constructor
  · intro hreq
    simp [parse_args, parseLoop, initState, finalizeRules, finalizeValueRule, getBinding, hreq]
  · intro hreq hmul
    refine ⟨⟨[], [CliRule.parameter r], [(rule_var_name r, r.default.getD Value.null)]⟩, ?_, ?_⟩
    · simp [parse_args, parseLoop, initState, finalizeRules, finalizeValueRule, getBinding,
            hreq, hmul, setBinding]
    · simp [getBinding]

/-- Witness for C8: a required `--param` with no input fails with
`MissingRequiredArgument`, and an optional untyped `--param` with no input
binds to `None`. -/
theorem finalize_required_and_default_witness :
    parse_args Mode.strict [CliRule.parameter fixtureRequired] []
        = Except.error (CliError.MissingRequiredArgument (rule_var_name fixtureRequired))
    ∧ ∃ ctx, parse_args Mode.strict [CliRule.parameter fixtureOptional] [] = Except.ok ctx
        ∧ getBinding ctx.bindings (rule_var_name fixtureOptional) = some Value.null :=
  ⟨(finalize_required_and_default fixtureRequired).1 rfl,
   (finalize_required_and_default fixtureOptional).2 rfl rfl⟩

/-- C6: the single-token `=` form and the two-token form of a parameter bind
identically: for any parameter rule with `=`-free keywords and any alias `k`
of it, resolving `[k ++ "=" ++ v]` produces the same resolution outcome as
resolving `[k, v]`, for every value `v`. -/
theorem param_eq_form_equiv (r : ValueRule) (k v : String)
    (hk : k ∈ r.keywords)
    (hfree : ∀ kw ∈ r.keywords, ('=' : Char) ∉ kw.data) :
    parse_args Mode.strict [CliRule.parameter r] [k ++ "=" ++ v]
      = parse_args Mode.strict [CliRule.parameter r] [k, v] := by
  have hnm : (k ++ "=" ++ v) ∉ r.keywords := eqtoken_not_keyword k v r.keywords hfree
  have hsp : splitEq (k ++ "=" ++ v) = some (k, v) := splitEq_append k v (hfree k hk)
  unfold parse_args initState
  simp only [parseLoop, findSubcommandMatch, findFlagMatch, findParamMatch, hsp, hnm, hk,
    if_true, if_false, if_neg, if_pos]

/-- Witness for C6: `--param=OK` and `--param OK` resolve identically for the
untyped `--param`/`-p` rule (and the spec scenario's binding is the string
"OK" in both). -/
theorem param_eq_form_equiv_witness :
    parse_args Mode.strict [CliRule.parameter fixtureParam] ["--param" ++ "=" ++ "OK"]
      = parse_args Mode.strict [CliRule.parameter fixtureParam] ["--param", "OK"] :=
  param_eq_form_equiv fixtureParam "--param" "OK" (by decide) (by decide)

/-- Invariant of the token loop for a single-parameter grammar with a
`multiple` rule: processing rendered occurrences only extends the rule's
accumulated sequence with the coerced values, in encounter order. -/
theorem parseLoop_param_occs (r : ValueRule) (hm : r.multiple = true)
    (hsc : r.strict_choices = false)
    (hfree : ∀ kw ∈ r.keywords, ('=' : Char) ∉ kw.data) :
    ∀ (occs : List ParamOcc) (vs : List Value) (st : PState) (acc : List Value),
      st.cur_scope = [CliRule.parameter r] →
      st.keyword_rules = [CliRule.parameter r] →
      (∀ o ∈ occs, o.kw ∈ r.keywords) →
      coerceOccs r.type occs = some vs →
      (getBinding st.bindings (rule_var_name r) = some (Value.list acc)
        ∨ (getBinding st.bindings (rule_var_name r) = Option.none ∧ acc = [] ∧ occs ≠ [])) →
      ∃ b, parseLoop Mode.strict st (renderOccs occs) = Except.ok { st with bindings := b }
        ∧ getBinding b (rule_var_name r) = some (Value.list (acc ++ vs)) := by
  intro occs
  induction occs with
  | nil =>
    intro vs st acc h1 h2 hkw hco hdis
    simp only [coerceOccs, Option.some.injEq] at hco
    subst hco
    rcases hdis with hsome | ⟨_, _, hne⟩
    · exact ⟨st.bindings, by simp [renderOccs, parseLoop], by simpa using hsome⟩
    · exact absurd rfl hne
  | cons o os ih =>
    intro vs st acc h1 h2 hkw hco hdis
    obtain ⟨krs, cs, pc, bnd, pth⟩ := st
    simp only at h1 h2
    subst h1
    subst h2
    have hkwo : o.kw ∈ r.keywords := hkw o (List.mem_cons_self _ _)
    simp only [coerceOccs] at hco
    cases hcv : coerce_checked r.type o.val with
    | error e => rw [hcv] at hco; cases hco
    | ok v =>
      rw [hcv] at hco
      cases hcos : coerceOccs r.type os with
      | none => rw [hcos] at hco; cases hco
      | some vs2 =>
        rw [hcos] at hco
        simp only [Option.map_some', Option.some.injEq] at hco
        subst hco
        have hbv : bindParamValue bnd r o.val
            = Except.ok (setBinding bnd (rule_var_name r) (Value.list (acc ++ [v]))) := by
          unfold bindParamValue validate_choice
          simp only [hsc, Bool.false_eq_true, if_false]
          rw [hcv]
          simp only [hm, if_true]
          unfold appendBinding
          rcases hdis with hsome | ⟨hnone, hacc, _⟩
          · rw [hsome]
          · rw [hnone]
            subst hacc
            rfl
        obtain ⟨b, hb1, hb2⟩ := ih vs2
          ⟨[CliRule.parameter r], [CliRule.parameter r], pc,
            setBinding bnd (rule_var_name r) (Value.list (acc ++ [v])), pth⟩ (acc ++ [v])
          rfl rfl (fun o2 ho2 => hkw o2 (List.mem_cons_of_mem o ho2)) hcos
          (Or.inl (getBinding_setBinding bnd (rule_var_name r) (Value.list (acc ++ [v]))))
        have hnm2 : (o.kw ++ "=" ++ o.val) ∉ r.keywords := eqtoken_not_keyword _ _ _ hfree
        have hsp : splitEq (o.kw ++ "=" ++ o.val) = some (o.kw, o.val) :=
          splitEq_append _ _ (hfree _ hkwo)
        refine ⟨b, ?_, ?_⟩
        · simp only [renderOccs, List.map_cons, List.flatten_cons] at hb1 ⊢
          cases ho : o.eqForm with
          | true =>
            simp only [renderOcc, ho, if_true, List.cons_append, List.nil_append]
            simp only [parseLoop, findSubcommandMatch, findFlagMatch, findParamMatch,
              hsp, hnm2, hkwo, if_true, if_false, if_neg, if_pos, hbv]
            exact hb1
          | false =>
            simp only [renderOcc, ho, Bool.false_eq_true, if_false, List.cons_append,
              List.nil_append]
            simp only [parseLoop, findSubcommandMatch, findFlagMatch, findParamMatch,
              hnm2, hkwo, if_true, if_false, if_neg, if_pos, hbv]
            exact hb1
        · simpa using hb2

/-- Successful occurrence coercion yields exactly one value per occurrence. -/
theorem coerceOccs_length : ∀ (t : Option Converter) (occs : List ParamOcc) (vs : List Value),
    coerceOccs t occs = some vs → vs.length = occs.length
  | _, [], vs, h => by
    simp only [coerceOccs, Option.some.injEq] at h
    subst h
    rfl
  | t, o :: os, vs, h => by
    simp only [coerceOccs] at h
    cases hcv : coerce_checked t o.val with
    | error e => rw [hcv] at h; cases h
    | ok v =>
      rw [hcv] at h
      cases hcos : coerceOccs t os with
      | none => rw [hcos] at h; cases h
      | some vs2 =>
        rw [hcos] at h
        simp only [Option.map_some', Option.some.injEq] at h
        subst h
        simp [coerceOccs_length t os vs2 hcos]

/-- C7: a `multiple` parameter supplied `k` times — in any mix of `=` and
two-token forms — binds a sequence of exactly `k` coerced values in encounter
order, and `k = 0` binds the empty sequence (not an absent value), regardless
of any declared default. -/
theorem multi_param_accumulation (r : ValueRule) (occs : List ParamOcc) (vs : List Value)
    (hm : r.multiple = true) (hsc : r.strict_choices = false)
    (hreq : r.required = false ∨ occs ≠ [])
    (hkw : ∀ o ∈ occs, o.kw ∈ r.keywords)
    (hfree : ∀ kw ∈ r.keywords, ('=' : Char) ∉ kw.data)
    (hco : coerceOccs r.type occs = some vs) :
    ∃ ctx, parse_args Mode.strict [CliRule.parameter r] (renderOccs occs) = Except.ok ctx
      ∧ getBinding ctx.bindings (rule_var_name r) = some (Value.list vs)
      ∧ vs.length = occs.length := by
  have hlen : vs.length = occs.length := coerceOccs_length r.type occs vs hco
  cases occs with
  | nil =>
    simp only [coerceOccs, Option.some.injEq] at hco
    subst hco
    have hreq2 : r.required = false := hreq.resolve_right (fun h => h rfl)
    refine ⟨⟨[], [CliRule.parameter r], [(rule_var_name r, Value.list [])]⟩, ?_, ?_, rfl⟩
    · simp [parse_args, renderOccs, parseLoop, initState, finalizeRules, finalizeValueRule,
            getBinding, hreq2, hm, setBinding]
    · simp [getBinding]
  | cons o os =>
    obtain ⟨b, hb1, hb2⟩ := parseLoop_param_occs r hm hsc hfree (o :: os) vs
      (initState [CliRule.parameter r]) [] rfl rfl hkw hco (Or.inr ⟨rfl, rfl, by simp⟩)
    have hb3 : getBinding b (rule_var_name r) = some (Value.list vs) := by simpa using hb2
    refine ⟨⟨[], [CliRule.parameter r], b⟩, ?_, hb3, hlen⟩
    unfold parse_args
    rw [hb1]
    simp only [finalizeRules, finalizeValueRule, hb3]
    rfl

/-- Witness for C7: the scenario of `test_multi_parameters` — a multiple int
parameter given `--param 800` then `--param=42` binds `[800, 42]` (two
elements, encounter order), and given nothing binds the empty sequence. -/
theorem multi_param_accumulation_witness :
    (∃ ctx, parse_args Mode.strict [CliRule.parameter fixtureMulti]
        (renderOccs [⟨"--param", "800", false⟩, ⟨"--param", "42", true⟩]) = Except.ok ctx
      ∧ getBinding ctx.bindings (rule_var_name fixtureMulti)
          = some (Value.list [Value.int 800, Value.int 42])
      ∧ ([Value.int 800, Value.int 42] : List Value).length
          = ([⟨"--param", "800", false⟩, ⟨"--param", "42", true⟩] : List ParamOcc).length)
    ∧ (∃ ctx, parse_args Mode.strict [CliRule.parameter fixtureMulti] (renderOccs [])
          = Except.ok ctx
      ∧ getBinding ctx.bindings (rule_var_name fixtureMulti) = some (Value.list [])
      ∧ ([] : List Value).length = ([] : List ParamOcc).length) :=
  ⟨multi_param_accumulation fixtureMulti _ _ rfl rfl (Or.inr (by decide)) (by decide)
      (by decide) rfl,
   multi_param_accumulation fixtureMulti [] [] rfl rfl (Or.inl rfl) (by decide) (by decide) rfl⟩

end Cliglue
